import Mathlib

/-!
Verification of the contribution-dashboard metrics pipeline
(`js/data-loader.js`): a shallow embedding of the metrics aggregator
(`DataLoader.calculateSummaryMetrics`), the weekly-trend computation of the
DOMContentLoaded handler, the chart series adapters of `ChartUpdater`, and
the timeline cross-referencer (`lookupTimecapsuleDocs` /
`buildTimecapsuleUrl`).

Conventions of the embedding:
* JavaScript numbers are modelled as rationals (`ℚ`); fields that may be
  absent or non-numeric are `Option`-valued (`none` = absent / falsy /
  non-numeric / unparseable).
* A dataset that may be `null` is `Option`-valued; a JS array is a `List`.
* `Array.prototype.reduce` with an initial accumulator is `List.foldl`.
* `slice(-n)` is `lastN · n` and `slice(0, n)` is `List.take n`.
* A parseable `period_end` date is modelled by its timestamp (`Int`),
  matching the `Date` comparisons (`>`, `getTime()` equality) of the code.
-/

/-- Generic left fold adding `f x` to an accumulator, as
`arr.reduce((s, x) => s + f(x), init)`. -/
theorem foldl_add_eq_sum {α : Type} (f : α → ℚ) :
    ∀ (l : List α) (init : ℚ),
      l.foldl (fun s x => s + f x) init = init + (l.map f).sum
  | [], init => by simp
  | x :: xs, init => by
    rw [List.foldl_cons, foldl_add_eq_sum f xs (init + f x)]
    simp [add_assoc]

/-- `arr.reduce((m, x) => f(x) > m ? f(x) : m, init)`: running maximum of the
images of the list elements, seeded with `init`. -/
def maxFold {α : Type} (f : α → Int) (init : Int) (l : List α) : Int :=
  l.foldl (fun m x => if f x > m then f x else m) init

theorem le_maxFold_init {α : Type} (f : α → Int) :
    ∀ (l : List α) (init : Int), init ≤ maxFold f init l
  | [], _ => le_refl _
  | x :: xs, init => by
    rw [maxFold, List.foldl_cons]
    by_cases h : f x > init
    · simp only [if_pos h]
      exact le_trans (le_of_lt h) (le_maxFold_init f xs (f x))
    · simp only [if_neg h]
      exact le_maxFold_init f xs init

theorem le_maxFold_mem {α : Type} (f : α → Int) :
    ∀ (l : List α) (init : Int), ∀ x ∈ l, f x ≤ maxFold f init l
  | [], _, x, hx => absurd hx (List.not_mem_nil x)
  | y :: ys, init, x, hx => by
    rw [maxFold, List.foldl_cons]
    rcases List.mem_cons.mp hx with h | h
    · subst h
      by_cases hy : f x > init
      · simp only [if_pos hy]
        exact le_maxFold_init f ys (f x)
      · simp only [if_neg hy]
        exact le_trans (le_of_not_lt hy) (le_maxFold_init f ys init)
    · by_cases hy : f y > init
      · simp only [if_pos hy]
        exact le_maxFold_mem f ys (f y) x h
      · simp only [if_neg hy]
        exact le_maxFold_mem f ys init x h

theorem maxFold_eq_init_or_mem {α : Type} (f : α → Int) :
    ∀ (l : List α) (init : Int),
      maxFold f init l = init ∨ ∃ x ∈ l, maxFold f init l = f x
  | [], init => Or.inl rfl
  | y :: ys, init => by
    rw [maxFold, List.foldl_cons]
    by_cases hy : f y > init
    · simp only [if_pos hy]
      rcases maxFold_eq_init_or_mem f ys (f y) with h | ⟨x, hx, hfx⟩
      · exact Or.inr ⟨y, List.mem_cons_self y ys, h⟩
      · exact Or.inr ⟨x, List.mem_cons_of_mem y hx, hfx⟩
    · simp only [if_neg hy]
      rcases maxFold_eq_init_or_mem f ys init with h | ⟨x, hx, hfx⟩
      · exact Or.inl h
      · exact Or.inr ⟨x, List.mem_cons_of_mem y hx, hfx⟩

/-- Tail of the JS reduce
`arr.reduce((top, x) => f(x) > (top?.v ?? -Infinity) ? x : top, null)` once
the accumulator is non-null: keeps the current best, replacing it only on a
strictly larger image (so the first-encountered element wins ties). -/
def argmaxGo {α : Type} (f : α → ℚ) (y : α) : List α → α
  | [] => y
  | x :: xs => if f x > f y then argmaxGo f x xs else argmaxGo f y xs

/-- `arr.reduce((top, x) => f(x) > (top?.v ?? -Infinity) ? x : top, null)`:
the accumulator starts `null`, and any real value exceeds `-Infinity`. -/
def argFold {α : Type} (f : α → ℚ) (l : List α) : Option α :=
  l.foldl
    (fun t x =>
      match t with
      | none => some x
      | some y => if f x > f y then some x else t)
    none

theorem argFold_some {α : Type} (f : α → ℚ) :
    ∀ (xs : List α) (y : α),
      xs.foldl
        (fun t x =>
          match t with
          | none => some x
          | some y => if f x > f y then some x else t)
        (some y) = some (argmaxGo f y xs)
  | [], _ => rfl
  | x :: xs, y => by
    rw [List.foldl_cons, argmaxGo]
    by_cases h : f x > f y
    · simp only [if_pos h]
      exact argFold_some f xs x
    · simp only [if_neg h]
      exact argFold_some f xs y

theorem argFold_eq {α : Type} (f : α → ℚ) (x : α) (xs : List α) :
    argFold f (x :: xs) = some (argmaxGo f x xs) := by
  rw [argFold, List.foldl_cons]
  exact argFold_some f xs x

theorem argmaxGo_eq_or_mem {α : Type} (f : α → ℚ) :
    ∀ (xs : List α) (y : α), argmaxGo f y xs = y ∨ argmaxGo f y xs ∈ xs
  | [], _ => Or.inl rfl
  | x :: xs, y => by
    rw [argmaxGo]
    by_cases h : f x > f y
    · simp only [if_pos h]
      rcases argmaxGo_eq_or_mem f xs x with h2 | h2
      · exact Or.inr (by rw [h2]; exact List.mem_cons_self x xs)
      · exact Or.inr (List.mem_cons_of_mem x h2)
    · simp only [if_neg h]
      rcases argmaxGo_eq_or_mem f xs y with h2 | h2
      · exact Or.inl h2
      · exact Or.inr (List.mem_cons_of_mem x h2)

theorem le_argmaxGo_init {α : Type} (f : α → ℚ) :
    ∀ (xs : List α) (y : α), f y ≤ f (argmaxGo f y xs)
  | [], _ => le_refl _
  | x :: xs, y => by
    rw [argmaxGo]
    by_cases h : f x > f y
    · simp only [if_pos h]
      exact le_trans (le_of_lt h) (le_argmaxGo_init f xs x)
    · simp only [if_neg h]
      exact le_argmaxGo_init f xs y

theorem le_argmaxGo_mem {α : Type} (f : α → ℚ) :
    ∀ (xs : List α) (y : α), ∀ x ∈ xs, f x ≤ f (argmaxGo f y xs)
  | [], _, x, hx => absurd hx (List.not_mem_nil x)
  | z :: zs, y, x, hx => by
    rw [argmaxGo]
    rcases List.mem_cons.mp hx with h | h
    · subst h
      by_cases hz : f x > f y
      · simp only [if_pos hz]
        exact le_argmaxGo_init f zs x
      · simp only [if_neg hz]
        exact le_trans (le_of_not_lt hz) (le_argmaxGo_init f zs y)
    · by_cases hz : f z > f y
      · simp only [if_pos hz]
        exact le_argmaxGo_mem f zs z x h
      · simp only [if_neg hz]
        exact le_argmaxGo_mem f zs y x h

theorem argmaxGo_ne_init {α : Type} (f : α → ℚ) :
    ∀ (xs : List α) (y : α), argmaxGo f y xs ≠ y → f y < f (argmaxGo f y xs)
  | [], y, h => absurd rfl h
  | x :: xs, y, h => by
    rw [argmaxGo] at h ⊢
    by_cases hx : f x > f y
    · simp only [if_pos hx] at h ⊢
      exact lt_of_lt_of_le hx (le_argmaxGo_init f xs x)
    · simp only [if_neg hx] at h ⊢
      exact argmaxGo_ne_init f xs y h

/-- The strict-`>` replacement policy of the reduce keeps the
first-encountered element among ties: the result splits `y :: xs` into a
prefix of strictly smaller images, the result itself, and a suffix. -/
theorem argmaxGo_first {α : Type} (f : α → ℚ) :
    ∀ (xs : List α) (y : α),
      ∃ l₁ l₂, y :: xs = l₁ ++ argmaxGo f y xs :: l₂ ∧
        ∀ z ∈ l₁, f z < f (argmaxGo f y xs)
  | [], y => ⟨[], [], rfl, by simp⟩
  | x :: xs, y => by
    rw [argmaxGo]
    by_cases hx : f x > f y
    · simp only [if_pos hx]
      obtain ⟨m₁, m₂, hm, hlt⟩ := argmaxGo_first f xs x
      refine ⟨y :: m₁, m₂, by rw [List.cons_append, ← hm], ?_⟩
      intro z hz
      rcases List.mem_cons.mp hz with h | h
      · subst h
        exact lt_of_lt_of_le hx (le_argmaxGo_init f xs x)
      · exact hlt z h
    · simp only [if_neg hx]
      obtain ⟨m₁, m₂, hm, hlt⟩ := argmaxGo_first f xs y
      match m₁, hm with
      | [], hm =>
        refine ⟨[], x :: xs, ?_, by simp⟩
        have : argmaxGo f y xs = y := by
          have := congrArg (fun l => l.head?) hm
          simpa using this.symm
        rw [this]
        simp
      | a :: m₁', hm =>
        have ha : a = y := by
          have := congrArg (fun l => l.head?) hm
          simpa using this.symm
        subst ha
        have hxs : xs = m₁' ++ argmaxGo f a xs :: m₂ := by
          have := congrArg (fun l => l.tail) hm
          simpa using this
        have hay : f a < f (argmaxGo f a xs) := by
          apply hlt
          exact List.mem_cons_self a m₁'
        refine ⟨a :: x :: m₁', m₂,
          by simpa using congrArg (fun l => a :: x :: l) hxs, ?_⟩
        intro z hz
        rcases List.mem_cons.mp hz with h | h
        · subst h; exact hay
        · rcases List.mem_cons.mp h with h2 | h2
          · subst h2
            exact lt_of_le_of_lt (le_of_not_lt hx) hay
          · exact hlt z (List.mem_cons_of_mem a h2)

/-- A node of `collaboration_network.json`: `id` plus the optional bubble
coordinates used by `updateNetworkChart` (`none` = property absent). -/
structure NetNode where
  id : String
  x : Option ℚ
  y : Option ℚ
  size : Option ℚ
deriving DecidableEq

/-- An edge of the collaboration network; `weight = none` models a
non-numeric `weight` (`typeof edge.weight === 'number'` fails). -/
structure NetEdge where
  source : String
  target : String
  weight : Option ℚ
deriving DecidableEq

/-- The collaboration-network dataset; `nodes`/`edges` are `none` when the
property is missing or not an array. -/
structure CollabNetwork where
  nodes : Option (List NetNode)
  edges : Option (List NetEdge)
deriving DecidableEq

/-- A record of `topic_evolution.json` as consumed by
`calculateSummaryMetrics`. `period_end = some t` models a truthy,
`Date`-parseable value with timestamp `t`; `volume = some v` models
`typeof volume === 'number'`. -/
structure TopicRecord where
  topic : String
  period_end : Option Int
  volume : Option ℚ
deriving DecidableEq

/-- A valid topic entry after the map/filter of lines 89–94: the record
enriched with its parsed end date. -/
structure ValidTopic where
  topic : String
  endDate : Int
  volume : ℚ
deriving DecidableEq

/-- A record of agent activity: `{agent, total}`. -/
structure AgentRecord where
  agent : String
  total : ℚ
deriving DecidableEq

/-- A record of `daily_contributions.json`: `{date, total}`. -/
structure ContributionDay where
  date : String
  total : ℚ
deriving DecidableEq

/-- The summary returned by `calculateSummaryMetrics`. -/
structure Summary where
  totalContributions : ℚ
  activeAgents : ℕ
  collaborationDensity : ℚ
  trendingTopic : String
deriving DecidableEq

/-- The node-id set of lines 63–73: the declared ids (dropping falsy ones,
`filter(Boolean)`) together with each edge's truthy `source` and `target`,
deduplicated (a JS `Set`); its length is `nodeIds.size`. The empty string
is the model of a falsy id. -/
def codeNodeIds (nodes : List NetNode) (edges : List NetEdge) : List String :=
  ((nodes.map (fun n => n.id)).filter (fun s => s ≠ "") ++
    edges.flatMap (fun e =>
      (if e.source ≠ "" then [e.source] else []) ++
        (if e.target ≠ "" then [e.target] else []))).dedup

/-- `nodeCount` of line 73. -/
def codeNodeCount (nodes : List NetNode) (edges : List NetEdge) : ℕ :=
  (codeNodeIds nodes edges).length

/-- `collaborationDensity` of lines 58–84 of `calculateSummaryMetrics`:
0 unless the network is present with a non-empty `edges` array; otherwise
`totalEdgeWeight / (maxPossibleEdges * 20)` when `maxPossibleEdges > 0`,
else 0. -/
def collaborationDensity (network : Option CollabNetwork) : ℚ :=
  match network with
  | none => 0
  | some net =>
    match net.edges with
    | none => 0
    | some edges =>
      if edges.length = 0 then 0
      else
        let nodesFromData := net.nodes.getD []
        let nodeCount := codeNodeCount nodesFromData edges
        let maxPossibleEdges : ℚ :=
          if nodeCount > 1 then ((nodeCount : ℚ) * ((nodeCount : ℚ) - 1)) / 2
          else 0
        let totalEdgeWeight :=
          edges.foldl (fun s e => s + e.weight.getD 0) 0
        if maxPossibleEdges > 0 then totalEdgeWeight / (maxPossibleEdges * 20)
        else 0

/-- `validEntries` of lines 89–94: records with a truthy, parseable
`period_end` and a numeric `volume`. -/
def validTopicsOf (ts : List TopicRecord) : List ValidTopic :=
  ts.filterMap (fun e =>
    match e.period_end, e.volume with
    | some d, some v => some ⟨e.topic, d, v⟩
    | _, _ => none)

/-- `trendingTopic` of lines 86–110: among valid entries, the maximal end
date (a reduce seeded with the first entry's date), the entries at that
date, and the first-encountered highest-volume one; `"N/A"` when the topics
input is absent, not an array, empty, or has no valid entry. -/
def trendingTopic (topics : Option (List TopicRecord)) : String :=
  match topics with
  | none => "N/A"
  | some ts =>
    if ts.isEmpty then "N/A"
    else
      match validTopicsOf ts with
      | [] => "N/A"
      | e :: rest =>
        let latest := maxFold (fun v => v.endDate) e.endDate (e :: rest)
        let latestTopics :=
          (e :: rest).filter (fun v => v.endDate == latest)
        match argFold (fun v => v.volume) latestTopics with
        | some top => top.topic
        | none => "N/A"

/-- `calculateSummaryMetrics` (lines 51–118): `null` when `agents` or
`dailyContributions` is absent, otherwise the four summary fields. -/
def calculateSummaryMetrics (agents : Option (List AgentRecord))
    (dailyContributions : Option (List ContributionDay))
    (topics : Option (List TopicRecord))
    (collaborationNetwork : Option CollabNetwork) : Option Summary :=
  match agents, dailyContributions with
  | some ags, some days =>
    some
      { totalContributions := days.foldl (fun s d => s + d.total) 0
        activeAgents := ags.length
        collaborationDensity := collaborationDensity collaborationNetwork
        trendingTopic := trendingTopic topics }
  | _, _ => none

/-- `arr.slice(-n)`: the last `min n (length)` elements. -/
def lastN {α : Type} (l : List α) (n : ℕ) : List α :=
  l.drop (l.length - n)

/-- `weeklyAverage` of lines 179–181 (and `calculateWeeklyAverage` of lines
406–410): mean of the totals, 0 for an empty window. `day.total || 0` is the
identity on rationals since only 0 is falsy. -/
def weeklyAverage (days : List ContributionDay) : ℚ :=
  if days.length = 0 then 0
  else (days.foldl (fun s d => s + d.total) 0) / (days.length : ℚ)

/-- `lastTwoWeeks`, `lastWeek`, `priorWeek` and `change` of lines 176–185:
`daily.slice(-14)`, its `slice(-7)` and `slice(0, 7)`, and the guarded
percentage change. -/
def weeklyChange (days : List ContributionDay) : ℚ :=
  let lastTwoWeeks := lastN days 14
  let lastWeek := lastN lastTwoWeeks 7
  let priorWeek := lastTwoWeeks.take 7
  let avgLastWeek := weeklyAverage lastWeek
  let avgPriorWeek := weeklyAverage priorWeek
  if avgPriorWeek > 0 then ((avgLastWeek - avgPriorWeek) / avgPriorWeek) * 100
  else 0

/-- `Math.round`: round half towards positive infinity. -/
def jsRound (x : ℚ) : ℤ := ⌊x + 1 / 2⌋

/-- `changeLabel` of line 186:
`` `${change >= 0 ? '+' : ''}${Math.round(change)}% vs last week` ``. -/
def changeLabel (days : List ContributionDay) : String :=
  let change := weeklyChange days
  (if change ≥ 0 then "+" else "") ++ toString (jsRound change) ++
    "% vs last week"

/-- Insertion step of the stable descending sort: the JS comparator
`(a, b) => b.total - a.total` puts `a` before the first element whose total
is not larger, so equal totals keep their original relative order. -/
def insertDesc (a : AgentRecord) : List AgentRecord → List AgentRecord
  | [] => [a]
  | b :: bs => if a.total ≥ b.total then a :: b :: bs else b :: insertDesc a bs

/-- `[...agents].sort((a, b) => b.total - a.total)`: the unique stable
descending-by-total ordering, realized as an insertion sort. -/
def sortAgentsDesc (l : List AgentRecord) : List AgentRecord :=
  l.foldr insertDesc []

/-- The series written by `updateAgentChart` (lines 449–464): labels and
data of the top-5 agents by total. -/
def updateAgentChartSeries (agents : List AgentRecord) :
    List String × List ℚ :=
  let sortedAgents := (sortAgentsDesc agents).take 5
  (sortedAgents.map (fun a => a.agent), sortedAgents.map (fun a => a.total))

/-- One record of `historical_trends.json`. -/
structure HistoricalTrendPoint where
  month : String
  contributions : ℚ
  collaborationScore : ℚ
deriving DecidableEq

/-- The `topic_evolution.json` structure consumed by `updateTopicChart`;
each property is `none` when missing. -/
structure TopicEvolution where
  topics : Option (List String)
  currentWeek : Option (List ℚ)
  lastWeek : Option (List ℚ)
deriving DecidableEq

/-- The chart-facing state (labels and datasets of the five charts) that
the `ChartUpdater.update*Chart` methods write into. -/
structure ChartState where
  overviewLabels : List String
  overviewData : List ℚ
  agentLabels : List String
  agentData : List ℚ
  networkData : List (ℚ × ℚ × ℚ)
  topicLabels : List String
  topicCurrent : List ℚ
  topicLast : List ℚ
  trendLabels : List String
  trendContributions : List ℚ
  trendCollab : List ℚ
deriving DecidableEq

/-- The default radar category list of lines 489–490. -/
def defaultTopicLabels : List String :=
  ["Autonomous Ops", "Safety", "Alignment", "Data Quality", "Tooling",
    "UX Research"]

/-- `updateOverviewChart` (lines 432–447): a no-op when
`dailyContributions` is absent, otherwise writes weekday labels (via the
date formatter `fmt`, modelling `toLocaleDateString`) and totals of the
last 7 days. -/
def updateOverviewChart (fmt : String → String)
    (dailyContributions : Option (List ContributionDay))
    (st : ChartState) : ChartState :=
  match dailyContributions with
  | none => st
  | some days =>
    let last7Days := lastN days 7
    { st with
      overviewLabels := last7Days.map (fun d => fmt d.date)
      overviewData := last7Days.map (fun d => d.total) }

/-- `updateAgentChart` (lines 449–464): a no-op when `agentActivity` is
absent, otherwise writes the top-5 ranking series. -/
def updateAgentChart (agentActivity : Option (List AgentRecord))
    (st : ChartState) : ChartState :=
  match agentActivity with
  | none => st
  | some agents =>
    { st with
      agentLabels := (updateAgentChartSeries agents).1
      agentData := (updateAgentChartSeries agents).2 }

/-- `node.x || fallback`: a JS `||` on numbers, where 0 is falsy. -/
def jsOrNum (v : Option ℚ) (fallback : ℚ) : ℚ :=
  match v with
  | some x => if x = 0 then fallback else x
  | none => fallback

/-- `updateNetworkChart` (lines 466–481): a no-op when the network or its
`nodes` is absent, otherwise emits one `{x, y, r}` bubble per node, with
`rnd i` modelling the two `Math.random() * 10` fallbacks for node `i` and
`r` defaulting to 15. -/
def updateNetworkChart (rnd : ℕ → ℚ × ℚ)
    (collaborationNetwork : Option CollabNetwork)
    (st : ChartState) : ChartState :=
  match collaborationNetwork with
  | none => st
  | some net =>
    match net.nodes with
    | none => st
    | some nodes =>
      { st with
        networkData :=
          (nodes.enum).map (fun p =>
            (jsOrNum p.2.x (rnd p.1).1, jsOrNum p.2.y (rnd p.1).2,
              jsOrNum p.2.size 15)) }

/-- `updateTopicChart` (lines 483–501): a no-op when `topicEvolution` is
absent; otherwise writes the labels (default list when `topics` is missing)
and overwrites each week series only when present. -/
def updateTopicChart (topicEvolution : Option TopicEvolution)
    (st : ChartState) : ChartState :=
  match topicEvolution with
  | none => st
  | some te =>
    { st with
      topicLabels := te.topics.getD defaultTopicLabels
      topicCurrent := te.currentWeek.getD st.topicCurrent
      topicLast := te.lastWeek.getD st.topicLast }

/-- `updateTrendChart` (lines 503–519): a no-op when `historicalTrends` is
absent, otherwise writes month labels and the two series. -/
def updateTrendChart (historicalTrends : Option (List HistoricalTrendPoint))
    (st : ChartState) : ChartState :=
  match historicalTrends with
  | none => st
  | some trends =>
    { st with
      trendLabels := trends.map (fun t => t.month)
      trendContributions := trends.map (fun t => t.contributions)
      trendCollab := trends.map (fun t => t.collaborationScore) }

/-- A period of `knowledgeIndex.timeline_periods`;
`timecapsule_documents = none` models a period without its own list. -/
structure TimelinePeriod where
  id : String
  start_day : Int
  end_day : Int
  timecapsule_documents : Option (List String)
deriving DecidableEq

/-- An entry of `knowledge.timecapsule_documents`; `link = none` models an
absent `link` field. -/
structure DocEntry where
  name : String
  link : Option String
deriving DecidableEq

/-- The knowledge-integration index (`knowledge_integration.json`);
`referencesTimelineToDocuments` models `references.timeline_to_documents`
as an assoc list keyed by period id. -/
structure KnowledgeIndex where
  timeline_periods : Option (List TimelinePeriod)
  timecapsule_documents : Option (List DocEntry)
  referencesTimelineToDocuments : Option (List (String × List String))
deriving DecidableEq

/-- A goal of `village_timeline.json` as consumed by the cross-referencer
(only its day range matters here). -/
structure Goal where
  start_day : Int
  end_day : Int
deriving DecidableEq

/-- The fixed external base path (`this.timecapsuleBase`, line 207). -/
def timecapsuleBase : String :=
  "https://github.com/ai-village-agents/village-time-capsule/blob/main/content/history/"

/-- `link.startsWith('http')`, stated on the character lists so that it
evaluates inside proofs. -/
def startsWithHttp (s : String) : Bool :=
  "http".data.isPrefixOf s.data

/-- `buildTimecapsuleUrl` (lines 628–632): `null` for a falsy link, the
link itself when it `startsWith('http')`, else the base-prefixed link. -/
def buildTimecapsuleUrl (link : String) : Option String :=
  if link = "" then none
  else if startsWithHttp link then some link
  else some (timecapsuleBase ++ link)

/-- The value stored for a document by the `documentLinks` map of lines
538–541: `doc.link || doc.name`. -/
def docLinkValue (d : DocEntry) : String :=
  match d.link with
  | some l => if l = "" then d.name else l
  | none => d.name

/-- `documentLinks.get(name)`: a JS `Map.set` loop keeps the last entry for
a duplicated name, so lookup searches the reversed list. -/
def documentLinksGet (docs : List DocEntry) (name : String) : Option String :=
  (docs.reverse.find? (fun d => d.name == name)).map docLinkValue

/-- `documentLinks.get(name) || name` (line 623). -/
def resolveDocName (docs : List DocEntry) (name : String) : String :=
  match documentLinksGet docs name with
  | some v => if v = "" then name else v
  | none => name

/-- `docNames` of lines 618–620: the matched period's own list, else the
`references.timeline_to_documents[period.id]` entry, else `[]`. -/
def docNamesFor (k : KnowledgeIndex) (p : TimelinePeriod) : List String :=
  match p.timecapsule_documents with
  | some ds => ds
  | none =>
    (((k.referencesTimelineToDocuments.getD []).find?
        (fun kv => kv.1 == p.id)).map (fun kv => kv.2)).getD []

/-- `lookupTimecapsuleDocs` (lines 611–626): find the period whose day
range equals the goal's, resolve its document names to links, build URLs
and drop the `null`s (`filter(Boolean)`). -/
def lookupTimecapsuleDocs (goal : Goal) (knowledge : Option KnowledgeIndex) :
    List String :=
  match knowledge with
  | none => []
  | some k =>
    let timelinePeriod :=
      (k.timeline_periods.getD []).find?
        (fun p => p.start_day == goal.start_day && p.end_day == goal.end_day)
    let docNames :=
      match timelinePeriod with
      | some p => docNamesFor k p
      | none => []
    (docNames.map (resolveDocName (k.timecapsule_documents.getD []))).filterMap
      buildTimecapsuleUrl

/-- Modelled from the spec: normalization of a resolved (non-empty) link to
an absolute URL — "pass through unchanged if already absolute (has a
network scheme), otherwise prepend a fixed external base path". -/
def specAbsolutize (link : String) : String :=
  if startsWithHttp link then link else timecapsuleBase ++ link

/-- Modelled from the spec's words for the C1 refinement: the
`collaborationDensity` formula as the spec states it — zero without edges;
otherwise `nodeCount` is the size of the union of declared node ids and all
edge endpoint ids, and the density is
`totalEdgeWeight / (maxPossibleEdges * 20)` when `maxPossibleEdges > 0`. -/
def specDensity (nodes : List NetNode) (edges : List NetEdge) : ℚ :=
  if edges.isEmpty then 0
  else
    let nodeCount :=
      ((nodes.map (fun n => n.id)) ++
        edges.flatMap (fun e => [e.source, e.target])).dedup.length
    let maxPossibleEdges : ℚ :=
      if nodeCount > 1 then ((nodeCount : ℚ) * ((nodeCount : ℚ) - 1)) / 2
      else 0
    let totalEdgeWeight := (edges.map (fun e => e.weight.getD 0)).sum
    if maxPossibleEdges > 0 then totalEdgeWeight / (maxPossibleEdges * 20)
    else 0

theorem weeklyAverage_eq (l : List ContributionDay) :
    weeklyAverage l = (l.map (fun d => d.total)).sum / (l.length : ℚ) := by
  unfold weeklyAverage
  split
  · rename_i h0
    rw [List.length_eq_zero.mp h0]
    simp
  · rw [foldl_add_eq_sum]
    simp

theorem weeklyAverage_nonneg (l : List ContributionDay)
    (h : ∀ d ∈ l, 0 ≤ d.total) : 0 ≤ weeklyAverage l := by
  rw [weeklyAverage_eq]
  apply div_nonneg
  · apply List.sum_nonneg
    intro x hx
    obtain ⟨d, hd, rfl⟩ := List.mem_map.mp hx
    exact h d hd
  · exact Nat.cast_nonneg _

/-- `Math.round` rounds to a nearest integer: the rounded value differs
from the argument by at most one half. -/
theorem jsRound_nearest (x : ℚ) : |((jsRound x : ℤ) : ℚ) - x| ≤ 1 / 2 := by
  rw [abs_le]
  constructor
  · have := Int.sub_one_lt_floor (x + 1 / 2)
    rw [jsRound]
    linarith
  · have := Int.floor_le (x + 1 / 2)
    rw [jsRound]
    linarith

/-- C7: for every `dailyContributions` sequence, the `totalContributions`
field of the summary returned by `calculateSummaryMetrics` equals the sum
of the `total` field over all entries, and for the empty sequence it
equals 0. -/
theorem c7_totalContributions_sum (ags : List AgentRecord)
    (days : List ContributionDay) (topics : Option (List TopicRecord))
    (net : Option CollabNetwork) :
    (calculateSummaryMetrics (some ags) (some days) topics net).map
        Summary.totalContributions =
      some ((days.map (fun d => d.total)).sum) ∧
    (calculateSummaryMetrics (some ags) (some []) topics net).map
        Summary.totalContributions = some 0 := by
  constructor
  · rw [calculateSummaryMetrics]
    simp [foldl_add_eq_sum]
  · rw [calculateSummaryMetrics]
    simp

/-- C6: `calculateSummaryMetrics` returns `null` if `agents` or
`dailyContributions` is absent; with both present it always returns a full
summary, in which an absent topics input or an absent collaboration
network only degrades the `trendingTopic` field (to the `"N/A"` sentinel)
or the `collaborationDensity` field (to 0) — each optional input feeds
only its own field, so its absence never aborts the whole summary. -/
theorem c6_requiredAndDegraded (ags : List AgentRecord)
    (days : List ContributionDay) (topics : Option (List TopicRecord))
    (net : Option CollabNetwork) :
    calculateSummaryMetrics none (some days) topics net = none ∧
    calculateSummaryMetrics (some ags) none topics net = none ∧
    calculateSummaryMetrics none none topics net = none ∧
    calculateSummaryMetrics (some ags) (some days) topics net =
      some
        { totalContributions := (days.map (fun d => d.total)).sum
          activeAgents := ags.length
          collaborationDensity := collaborationDensity net
          trendingTopic := trendingTopic topics } ∧
    trendingTopic none = "N/A" ∧
    collaborationDensity none = 0 := by
  refine ⟨rfl, rfl, rfl, ?_, rfl, rfl⟩
  rw [calculateSummaryMetrics]
  simp [foldl_add_eq_sum]

/-- C10: with at most 7 days of data the `slice(-14)`/`slice(-7)`/
`slice(0,7)` windows coincide, so the weekly trend delta is exactly 0 and
the dashboard displays `+0% vs last week`. -/
theorem c10_shortHistoryZero (days : List ContributionDay)
    (h : days.length ≤ 7) :
    lastN (lastN days 14) 7 = (lastN days 14).take 7 ∧
    weeklyChange days = 0 ∧
    changeLabel days = "+0% vs last week" := by
  have h14 : lastN days 14 = days := by
    rw [lastN, Nat.sub_eq_zero_of_le (le_trans h (by norm_num)),
      List.drop_zero]
  have h7 : lastN days 7 = days := by
    rw [lastN, Nat.sub_eq_zero_of_le h, List.drop_zero]
  have htake : days.take 7 = days := List.take_of_length_le h
  have hchange : weeklyChange days = 0 := by
    rw [weeklyChange]
    simp only [h14, h7, htake]
    split
    · rw [sub_self, zero_div, zero_mul]
    · rfl
  refine ⟨by rw [h14, h7, htake], hchange, ?_⟩
  rw [changeLabel]
  simp only [hchange]
  norm_num
  have : jsRound 0 = 0 := by
    rw [jsRound]
    norm_num [Int.floor_eq_iff]
  rw [this]
  rfl

/-- Witness for C10 at a concrete 3-day history. -/
theorem c10_shortHistoryZero_witness :
    weeklyChange
        [⟨"2025-06-01", 4⟩, ⟨"2025-06-02", 9⟩, ⟨"2025-06-03", 2⟩] = 0 ∧
    changeLabel
        [⟨"2025-06-01", 4⟩, ⟨"2025-06-02", 9⟩, ⟨"2025-06-03", 2⟩] =
      "+0% vs last week" :=
  ⟨(c10_shortHistoryZero _ (by decide)).2.1,
    (c10_shortHistoryZero _ (by decide)).2.2⟩

/-- C3: the weekly trend delta takes the last 14 entries, splits them into
the most recent 7 and the preceding 7, takes each window's mean total, and
is `(thisWeekMean - priorWeekMean) / priorWeekMean * 100`, exactly 0
whenever the prior-week mean is 0; the displayed tag rounds the change to a
nearest integer and carries a leading `+` exactly when the change is
non-negative. -/
theorem c3_weeklyTrendDelta (days : List ContributionDay)
    (h : ∀ d ∈ days, 0 ≤ d.total) :
    ((((lastN days 14).take 7).map (fun d => d.total)).sum /
          (((lastN days 14).take 7).length : ℚ) = 0 →
        weeklyChange days = 0) ∧
    (∀ thisMean priorMean : ℚ,
      thisMean = ((lastN (lastN days 14) 7).map (fun d => d.total)).sum /
          ((lastN (lastN days 14) 7).length : ℚ) →
      priorMean = (((lastN days 14).take 7).map (fun d => d.total)).sum /
          (((lastN days 14).take 7).length : ℚ) →
      priorMean ≠ 0 →
        weeklyChange days = (thisMean - priorMean) / priorMean * 100) ∧
    changeLabel days =
      (if weeklyChange days ≥ 0 then "+" else "") ++
        toString (jsRound (weeklyChange days)) ++ "% vs last week" ∧
    |((jsRound (weeklyChange days) : ℤ) : ℚ) - weeklyChange days| ≤ 1 / 2 := by
  have hprior : ∀ d ∈ (lastN days 14).take 7, 0 ≤ d.total := fun d hd =>
    h d (List.mem_of_mem_drop (List.mem_of_mem_take hd))
  have hpm : weeklyAverage ((lastN days 14).take 7) =
      (((lastN days 14).take 7).map (fun d => d.total)).sum /
        (((lastN days 14).take 7).length : ℚ) := weeklyAverage_eq _
  refine ⟨?_, ?_, rfl, jsRound_nearest _⟩
  · intro h0
    rw [weeklyChange]
    have : ¬ weeklyAverage ((lastN days 14).take 7) > 0 := by
      rw [hpm, h0]
      exact lt_irrefl 0
    simp only [if_neg this]
  · intro thisMean priorMean hT hP hne
    rw [weeklyChange]
    have hpos : weeklyAverage ((lastN days 14).take 7) > 0 := by
      rcases lt_or_eq_of_le (weeklyAverage_nonneg _ hprior) with hlt | heq
      · exact hlt
      · exact absurd (by rw [hP, ← hpm, ← heq]) hne
    simp only [if_pos hpos]
    rw [hT, hP, ← weeklyAverage_eq, ← weeklyAverage_eq]

/-- Witness for C3 at a 14-day history whose prior week averages 1 and
whose most recent week averages 2: the change is +100%. -/
theorem c3_weeklyTrendDelta_witness :
    weeklyChange
        [⟨"d01", 1⟩, ⟨"d02", 1⟩, ⟨"d03", 1⟩, ⟨"d04", 1⟩, ⟨"d05", 1⟩,
          ⟨"d06", 1⟩, ⟨"d07", 1⟩, ⟨"d08", 2⟩, ⟨"d09", 2⟩, ⟨"d10", 2⟩,
          ⟨"d11", 2⟩, ⟨"d12", 2⟩, ⟨"d13", 2⟩, ⟨"d14", 2⟩] = 100 := by
  rw [(c3_weeklyTrendDelta _ (by decide)).2.1 2 1 (by norm_num [lastN])
    (by norm_num [lastN]) (by norm_num)]
  norm_num

/-- The end-to-end density scenario of the spec: nodes `n1, n2, n3` and
edges `(n1, n2, 10)` and `(n2, n3, 5)`. -/
def exampleNetwork : CollabNetwork :=
  { nodes := some
      [⟨"n1", none, none, none⟩, ⟨"n2", none, none, none⟩,
        ⟨"n3", none, none, none⟩]
    edges := some
      [⟨"n1", "n2", some 10⟩, ⟨"n2", "n3", some 5⟩] }

/-- C1: the computed `collaborationDensity` agrees with the spec's formula
(0 without edges, otherwise `totalEdgeWeight / (maxPossibleEdges * 20)`
over the union of declared node ids and edge endpoints) for every graph
whose ids and endpoints are real (non-empty) identifiers, and in
particular the `[n1, n2, n3]` / `{(n1, n2, 10), (n2, n3, 5)}` scenario has
density `0.25`. -/
theorem c1_densityFormula (nodesOpt : Option (List NetNode))
    (edges : List NetEdge)
    (hids : ∀ n ∈ nodesOpt.getD [], n.id ≠ "")
    (hep : ∀ e ∈ edges, e.source ≠ "" ∧ e.target ≠ "") :
    collaborationDensity (some ⟨nodesOpt, some edges⟩) =
      specDensity (nodesOpt.getD []) edges ∧
    collaborationDensity (some ⟨nodesOpt, some []⟩) = 0 ∧
    collaborationDensity (some exampleNetwork) = 1 / 4 := by
  have hconcrete : collaborationDensity (some exampleNetwork) = 1 / 4 := by
    have hids3 : codeNodeCount
        [⟨"n1", none, none, none⟩, ⟨"n2", none, none, none⟩,
          ⟨"n3", none, none, none⟩]
        [⟨"n1", "n2", some 10⟩, ⟨"n2", "n3", some 5⟩] = 3 := rfl
    simp only [collaborationDensity, exampleNetwork]
    norm_num
    rw [hids3]
    norm_num
  refine ⟨?_, rfl, hconcrete⟩
  have hlist : codeNodeIds (nodesOpt.getD []) edges =
      ((nodesOpt.getD []).map (fun n => n.id) ++
        edges.flatMap (fun e => [e.source, e.target])).dedup := by
    rw [codeNodeIds]
    congr 2
    · refine List.filter_eq_self.mpr ?_
      intro a ha
      obtain ⟨n, hn, rfl⟩ := List.mem_map.mp ha
      simpa using hids n hn
    · refine List.flatMap_congr ?_
      intro e he
      rw [if_pos (hep e he).1, if_pos (hep e he).2]
      rfl
  have hsum : edges.foldl (fun s e => s + e.weight.getD 0) 0 =
      (edges.map (fun e => e.weight.getD 0)).sum := by
    rw [foldl_add_eq_sum, zero_add]
  cases edges with
  | nil => rfl
  | cons e es =>
    simp only [collaborationDensity, specDensity, codeNodeCount, hlist, hsum,
      List.isEmpty_cons, List.length_cons]
    rfl

/-- Witness for C1 at the spec's end-to-end scenario. -/
theorem c1_densityFormula_witness :
    collaborationDensity
        (some ⟨exampleNetwork.nodes,
          some [⟨"n1", "n2", some 10⟩, ⟨"n2", "n3", some 5⟩]⟩) =
      specDensity (exampleNetwork.nodes.getD [])
        [⟨"n1", "n2", some 10⟩, ⟨"n2", "n3", some 5⟩] ∧
    collaborationDensity (some exampleNetwork) = 1 / 4 :=
  ⟨(c1_densityFormula exampleNetwork.nodes
      [⟨"n1", "n2", some 10⟩, ⟨"n2", "n3", some 5⟩]
      (by decide) (by decide)).1,
    (c1_densityFormula (some []) [] (by decide) (by decide)).2.2⟩

/-- C4 counterexample: a graph whose edge weights all lie in `[0, 20]` but
whose density is 2, because a repeated edge makes the total weight exceed
`maxPossibleEdges * 20`; the claim that the density always lies in `[0, 1]`
for weights in `[0, 20]` is false of the code. -/
theorem c4_counterexample :
    (∀ e ∈ [NetEdge.mk "a" "b" (some 20), NetEdge.mk "a" "b" (some 20)],
      0 ≤ e.weight.getD 0 ∧ e.weight.getD 0 ≤ 20) ∧
    collaborationDensity
        (some ⟨some [],
          some [⟨"a", "b", some 20⟩, ⟨"a", "b", some 20⟩]⟩) = 2 ∧
    ¬ collaborationDensity
        (some ⟨some [],
          some [⟨"a", "b", some 20⟩, ⟨"a", "b", some 20⟩]⟩) ≤ 1 := by
  have h2 : codeNodeCount []
      [⟨"a", "b", some 20⟩, ⟨"a", "b", some 20⟩] = 2 := rfl
  have hd : collaborationDensity
      (some ⟨some [], some [⟨"a", "b", some 20⟩, ⟨"a", "b", some 20⟩]⟩) =
      2 := by
    simp only [collaborationDensity]
    norm_num
    rw [h2]
    norm_num
  refine ⟨?_, hd, by rw [hd]; norm_num⟩
  intro e he
  rcases List.mem_cons.mp he with h | h
  · subst h; exact ⟨by norm_num, by norm_num⟩
  · rcases List.mem_cons.mp h with h' | h'
    · subst h'; exact ⟨by norm_num, by norm_num⟩
    · exact absurd h' (List.not_mem_nil e)

/-- C4 (amended): for graphs whose edge weights lie in `[0, 20]` and whose
edge count does not exceed `nodeCount * (nodeCount - 1) / 2` (as is the
case when edges are distinct unordered pairs of distinct endpoints), the
density lies in `[0, 1]`; a graph with zero edges has density exactly 0,
and a graph whose node count is at most 1 has density exactly 0. -/
theorem c4_densityRange (nodes : List NetNode) (edges : List NetEdge)
    (hw : ∀ e ∈ edges, 0 ≤ e.weight.getD 0 ∧ e.weight.getD 0 ≤ 20)
    (hcount : 2 * edges.length ≤
      codeNodeCount nodes edges * (codeNodeCount nodes edges - 1)) :
    0 ≤ collaborationDensity (some ⟨some nodes, some edges⟩) ∧
    collaborationDensity (some ⟨some nodes, some edges⟩) ≤ 1 ∧
    collaborationDensity (some ⟨some nodes, some []⟩) = 0 ∧
    (codeNodeCount nodes edges ≤ 1 →
      collaborationDensity (some ⟨some nodes, some edges⟩) = 0) := by
  cases edges with
  | nil =>
    have h0 : collaborationDensity
        (some ⟨some nodes, some ([] : List NetEdge)⟩) = 0 := rfl
    exact ⟨by rw [h0], by rw [h0]; norm_num, h0, fun _ => h0⟩
  | cons e es =>
    have hsum : (e :: es).foldl (fun s x => s + x.weight.getD 0) 0 =
        ((e :: es).map (fun x => x.weight.getD 0)).sum := by
      rw [foldl_add_eq_sum, zero_add]
    set N := codeNodeCount nodes (e :: es) with hN
    have hmain : 0 ≤ collaborationDensity (some ⟨some nodes, some (e :: es)⟩) ∧
        collaborationDensity (some ⟨some nodes, some (e :: es)⟩) ≤ 1 := by
      simp only [collaborationDensity, Option.getD_some, hsum, ← hN]
      rw [if_neg (by simp : ¬ (e :: es).length = 0)]
      by_cases h1 : N > 1
      · have hNQ : (2 : ℚ) ≤ (N : ℚ) := by exact_mod_cast h1
        have hmax : ((N : ℚ) * ((N : ℚ) - 1)) / 2 > 0 := by
          apply div_pos _ (by norm_num)
          apply mul_pos (by linarith) (by linarith)
        have hW0 : 0 ≤ ((e :: es).map (fun x => x.weight.getD 0)).sum := by
          apply List.sum_nonneg
          intro x hx
          obtain ⟨d, hd, rfl⟩ := List.mem_map.mp hx
          exact (hw d hd).1
        have hWle : ((e :: es).map (fun x => x.weight.getD 0)).sum ≤
            ((e :: es).length : ℚ) * 20 := by
          have := List.sum_le_card_nsmul
            ((e :: es).map (fun x => x.weight.getD 0)) 20
            (by
              intro x hx
              obtain ⟨d, hd, rfl⟩ := List.mem_map.mp hx
              exact (hw d hd).2)
          rw [List.length_map] at this
          simpa [nsmul_eq_mul] using this
        have hlen : ((e :: es).length : ℚ) ≤ ((N : ℚ) * ((N : ℚ) - 1)) / 2 := by
          have hc : ((2 * (e :: es).length : ℕ) : ℚ) ≤
              ((N * (N - 1) : ℕ) : ℚ) := by exact_mod_cast hcount
          have hsub : ((N - 1 : ℕ) : ℚ) = (N : ℚ) - 1 := by
            have : 1 ≤ N := le_of_lt h1
            exact Nat.cast_sub this
          push_cast at hc
          rw [hsub] at hc
          linarith
        rw [if_pos h1, if_pos hmax]
        constructor
        · apply div_nonneg hW0
          apply le_of_lt
          apply mul_pos hmax (by norm_num)
        · rw [div_le_one (by positivity)]
          calc ((e :: es).map (fun x => x.weight.getD 0)).sum
              ≤ ((e :: es).length : ℚ) * 20 := hWle
            _ ≤ (((N : ℚ) * ((N : ℚ) - 1)) / 2) * 20 := by linarith
      · rw [if_neg h1]
        norm_num
    refine ⟨hmain.1, hmain.2, rfl, ?_⟩
    intro hle
    have h1 : ¬ N > 1 := by omega
    simp only [collaborationDensity, Option.getD_some, hsum, ← hN]
    rw [if_neg (by simp : ¬ (e :: es).length = 0), if_neg h1]
    norm_num

/-- Witness for C4 (amended) at the three-node, two-edge scenario. -/
theorem c4_densityRange_witness :
    0 ≤ collaborationDensity
        (some ⟨some [⟨"n1", none, none, none⟩, ⟨"n2", none, none, none⟩,
            ⟨"n3", none, none, none⟩],
          some [⟨"n1", "n2", some 10⟩, ⟨"n2", "n3", some 5⟩]⟩) ∧
    collaborationDensity
        (some ⟨some [⟨"n1", none, none, none⟩, ⟨"n2", none, none, none⟩,
            ⟨"n3", none, none, none⟩],
          some [⟨"n1", "n2", some 10⟩, ⟨"n2", "n3", some 5⟩]⟩) ≤ 1 :=
  ⟨(c4_densityRange _ _
      (by intro e he; fin_cases he <;> constructor <;> norm_num)
      (by decide)).1,
    (c4_densityRange _ _
      (by intro e he; fin_cases he <;> constructor <;> norm_num)
      (by decide)).2.1⟩

theorem mem_insertDesc (a x : AgentRecord) :
    ∀ l : List AgentRecord, x ∈ insertDesc a l ↔ x = a ∨ x ∈ l
  | [] => by simp [insertDesc]
  | b :: bs => by
    rw [insertDesc]
    by_cases h : a.total ≥ b.total
    · rw [if_pos h]
      simp [List.mem_cons]
    · rw [if_neg h]
      rw [List.mem_cons, mem_insertDesc a x bs, List.mem_cons]
      tauto

theorem insertDesc_perm (a : AgentRecord) :
    ∀ l : List AgentRecord, List.Perm (insertDesc a l) (a :: l)
  | [] => List.Perm.refl _
  | b :: bs => by
    rw [insertDesc]
    by_cases h : a.total ≥ b.total
    · rw [if_pos h]
    · rw [if_neg h]
      exact List.Perm.trans
        (List.Perm.cons b (insertDesc_perm a bs))
        (List.Perm.swap a b bs)

theorem sortAgentsDesc_perm :
    ∀ l : List AgentRecord, List.Perm (sortAgentsDesc l) l
  | [] => List.Perm.refl _
  | x :: xs => by
    rw [sortAgentsDesc, List.foldr_cons]
    exact List.Perm.trans (insertDesc_perm x (sortAgentsDesc xs))
      (List.Perm.cons x (sortAgentsDesc_perm xs))

theorem insertDesc_sorted (a : AgentRecord) :
    ∀ l : List AgentRecord,
      l.Pairwise (fun x y => y.total ≤ x.total) →
      (insertDesc a l).Pairwise (fun x y => y.total ≤ x.total)
  | [], _ => by simp [insertDesc]
  | b :: bs, h => by
    rw [insertDesc]
    rcases List.pairwise_cons.mp h with ⟨hb, hbs⟩
    by_cases hab : a.total ≥ b.total
    · rw [if_pos hab]
      refine List.pairwise_cons.mpr ⟨?_, h⟩
      intro z hz
      rcases List.mem_cons.mp hz with rfl | hz'
      · exact hab
      · exact le_trans (hb z hz') hab
    · rw [if_neg hab]
      refine List.pairwise_cons.mpr ⟨?_, insertDesc_sorted a bs hbs⟩
      intro z hz
      rcases (mem_insertDesc a z bs).mp hz with rfl | hz'
      · exact le_of_not_le hab
      · exact hb z hz'

theorem sortAgentsDesc_sorted :
    ∀ l : List AgentRecord,
      (sortAgentsDesc l).Pairwise (fun x y => y.total ≤ x.total)
  | [] => List.Pairwise.nil
  | x :: xs => by
    rw [sortAgentsDesc, List.foldr_cons]
    exact insertDesc_sorted x (sortAgentsDesc xs) (sortAgentsDesc_sorted xs)

theorem filter_insertDesc (a : AgentRecord) (t : ℚ) :
    ∀ l : List AgentRecord,
      (insertDesc a l).filter (fun x => x.total == t) =
        if a.total == t then
          a :: l.filter (fun x => x.total == t)
        else l.filter (fun x => x.total == t)
  | [] => by
    rw [insertDesc]
    by_cases h : a.total = t
    · simp [h]
    · simp [h]
  | b :: bs => by
    rw [insertDesc]
    by_cases hab : a.total ≥ b.total
    · rw [if_pos hab]
      by_cases h : a.total = t
      · simp [List.filter_cons, h]
      · simp [List.filter_cons, h]
    · rw [if_neg hab]
      rw [List.filter_cons, List.filter_cons, filter_insertDesc a t bs]
      by_cases h : a.total = t
      · have hbt : ¬ b.total = t := by
          intro hb
          exact hab (le_of_eq (hb.trans h.symm))
        simp [h, hbt]
      · by_cases hb : b.total = t
        · simp [h, hb]
        · simp [h, hb]

/-- Stability of the sort: for every total value, the equal-total records
appear in the sorted list exactly in their original order. -/
theorem sortAgentsDesc_stable (t : ℚ) :
    ∀ l : List AgentRecord,
      (sortAgentsDesc l).filter (fun x => x.total == t) =
        l.filter (fun x => x.total == t)
  | [] => rfl
  | x :: xs => by
    have hcons : sortAgentsDesc (x :: xs) = insertDesc x (sortAgentsDesc xs) :=
      rfl
    rw [hcons, filter_insertDesc x t (sortAgentsDesc xs), List.filter_cons,
      sortAgentsDesc_stable t xs]

/-- C8: the agent ranking series is the records stably sorted descending by
`total` (ties keep their original relative order), truncated to the first
5, with labels the agent identifiers and values the totals; fewer than 5
agents yield all of them, with no padding. -/
theorem c8_agentRanking (agents : List AgentRecord) :
    (updateAgentChartSeries agents).1 =
      ((sortAgentsDesc agents).take 5).map (fun a => a.agent) ∧
    (updateAgentChartSeries agents).2 =
      ((sortAgentsDesc agents).take 5).map (fun a => a.total) ∧
    List.Perm (sortAgentsDesc agents) agents ∧
    (sortAgentsDesc agents).Pairwise (fun x y => y.total ≤ x.total) ∧
    (∀ t : ℚ, (sortAgentsDesc agents).filter (fun x => x.total == t) =
      agents.filter (fun x => x.total == t)) ∧
    (agents.length ≤ 5 → (sortAgentsDesc agents).take 5 = sortAgentsDesc agents) := by
  refine ⟨rfl, rfl, sortAgentsDesc_perm agents, sortAgentsDesc_sorted agents,
    fun t => sortAgentsDesc_stable t agents, ?_⟩
  intro h
  apply List.take_of_length_le
  rw [(sortAgentsDesc_perm agents).length_eq]
  exact h

/-- Witness for C8 at the spec's two-agent scenario: ranking `[B, A]`. -/
theorem c8_agentRanking_witness :
    (sortAgentsDesc [⟨"A", 5⟩, ⟨"B", 25⟩]).take 5 =
      sortAgentsDesc [⟨"A", 5⟩, ⟨"B", 25⟩] ∧
    updateAgentChartSeries [⟨"A", 5⟩, ⟨"B", 25⟩] = (["B", "A"], [25, 5]) :=
  ⟨(c8_agentRanking [⟨"A", 5⟩, ⟨"B", 25⟩]).2.2.2.2.2 (by decide),
    by decide⟩

/-- C2: `trendingTopic` restricts to records with parseable `period_end`
and numeric `volume`; among those at the maximal `period_end` it returns
the topic of a record `r` of maximal volume that is the first-encountered
on volume ties (every earlier candidate has strictly smaller volume); with
no valid records (absent, empty or all-invalid input) it returns the
`"N/A"` sentinel — and, being a total function, it never crashes. -/
theorem c2_trendingTopic (ts : List TopicRecord) :
    trendingTopic none = "N/A" ∧
    (validTopicsOf ts = [] → trendingTopic (some ts) = "N/A") ∧
    (validTopicsOf ts ≠ [] →
      ∃ r l₁ l₂,
        trendingTopic (some ts) = r.topic ∧
        r ∈ validTopicsOf ts ∧
        (∀ v ∈ validTopicsOf ts, v.endDate ≤ r.endDate) ∧
        (validTopicsOf ts).filter (fun v => v.endDate == r.endDate) =
          l₁ ++ r :: l₂ ∧
        (∀ v ∈ validTopicsOf ts, v.endDate = r.endDate →
          v.volume ≤ r.volume) ∧
        (∀ v ∈ l₁, v.volume < r.volume)) := by
  refine ⟨rfl, ?_, ?_⟩
  · intro h
    by_cases hts : ts.isEmpty
    · simp [trendingTopic, hts]
    · simp [trendingTopic, hts, h]
  · intro hne
    have hts : ts.isEmpty = false := by
      cases ts with
      | nil => exact absurd rfl hne
      | cons a tl => rfl
    cases hv : validTopicsOf ts with
    | nil => exact absurd hv hne
    | cons e rest =>
      set latest := maxFold (fun v => v.endDate) e.endDate (e :: rest)
        with hlatest
      have hcand_mem : ∃ x ∈ e :: rest, x.endDate = latest := by
        rcases maxFold_eq_init_or_mem (fun v => v.endDate) (e :: rest)
            e.endDate with h | ⟨x, hx, hfx⟩
        · exact ⟨e, List.mem_cons_self e rest, h.symm ▸ rfl⟩
        · exact ⟨x, hx, hfx.symm⟩
      obtain ⟨x, hx, hxd⟩ := hcand_mem
      have hxc : x ∈ (e :: rest).filter (fun v => v.endDate == latest) :=
        List.mem_filter.mpr ⟨hx, by simp [hxd]⟩
      cases hc : (e :: rest).filter (fun v => v.endDate == latest) with
      | nil => rw [hc] at hxc; exact absurd hxc (List.not_mem_nil x)
      | cons c cs =>
        set r := argmaxGo (fun v => v.volume) c cs with hr
        have hrc : r ∈ c :: cs := by
          rcases argmaxGo_eq_or_mem (fun v => v.volume) cs c with h | h
          · rw [hr, h]; exact List.mem_cons_self c cs
          · rw [hr]; exact List.mem_cons_of_mem c h
        have hr_filter : r ∈ (e :: rest).filter (fun v => v.endDate == latest) := by
          rw [hc]; exact hrc
        have hr_mem : r ∈ (e :: rest) := (List.mem_filter.mp hr_filter).1
        have hr_date : r.endDate = latest := by
          have := (List.mem_filter.mp hr_filter).2
          exact beq_iff_eq.mp (by simpa using this)
        have htop : trendingTopic (some ts) = r.topic := by
          rw [trendingTopic]
          simp only [hts, Bool.false_eq_true, if_false, hv]
          rw [← hlatest, hc, argFold_eq, ← hr]
        refine ⟨r, ?_⟩
        obtain ⟨l₁, l₂, hsplit, hlt⟩ :=
          argmaxGo_first (fun v => v.volume) cs c
        refine ⟨l₁, l₂, htop, hr_mem, ?_, ?_, ?_, ?_⟩
        · intro v hv'
          rw [hr_date]
          exact le_maxFold_mem (fun v => v.endDate) (e :: rest) e.endDate v hv'
        · rw [hr_date, hc, hr]
          exact hsplit
        · intro v hv' hvd
          have hvc : v ∈ c :: cs := by
            rw [← hc]
            exact List.mem_filter.mpr ⟨hv', by simp [hvd, hr_date]⟩
          rcases List.mem_cons.mp hvc with rfl | h
          · exact le_argmaxGo_init (fun v => v.volume) cs v
          · exact le_argmaxGo_mem (fun v => v.volume) cs c v h
        · exact fun v hv' => hlt v hv'

/-- Witness for C2: an all-invalid topic list yields the sentinel, and a
valid list with a volume tie at the latest period has a first-encountered
maximal representative. -/
theorem c2_trendingTopic_witness :
    trendingTopic (some [⟨"broken", none, some 3⟩]) = "N/A" ∧
    (∃ r l₁ l₂,
      trendingTopic
          (some [⟨"alpha", some 10, some 7⟩, ⟨"beta", some 10, some 7⟩,
            ⟨"gamma", some 9, some 50⟩]) = r.topic ∧
      r ∈ validTopicsOf
          [⟨"alpha", some 10, some 7⟩, ⟨"beta", some 10, some 7⟩,
            ⟨"gamma", some 9, some 50⟩] ∧
      (∀ v ∈ validTopicsOf
          [⟨"alpha", some 10, some 7⟩, ⟨"beta", some 10, some 7⟩,
            ⟨"gamma", some 9, some 50⟩], v.endDate ≤ r.endDate) ∧
      (validTopicsOf
          [⟨"alpha", some 10, some 7⟩, ⟨"beta", some 10, some 7⟩,
            ⟨"gamma", some 9, some 50⟩]).filter
          (fun v => v.endDate == r.endDate) = l₁ ++ r :: l₂ ∧
      (∀ v ∈ validTopicsOf
          [⟨"alpha", some 10, some 7⟩, ⟨"beta", some 10, some 7⟩,
            ⟨"gamma", some 9, some 50⟩], v.endDate = r.endDate →
        v.volume ≤ r.volume) ∧
      (∀ v ∈ l₁, v.volume < r.volume)) :=
  ⟨(c2_trendingTopic [⟨"broken", none, some 3⟩]).2.1 (by decide),
    (c2_trendingTopic _).2.2 (by decide)⟩

theorem buildTimecapsuleUrl_eq (s : String) (h : s ≠ "") :
    buildTimecapsuleUrl s = some (specAbsolutize s) := by
  rw [buildTimecapsuleUrl, specAbsolutize, if_neg h]
  by_cases hs : startsWithHttp s
  · rw [if_pos hs, if_pos hs]
  · rw [if_neg hs, if_neg hs]

theorem filterMap_build_eq_map :
    ∀ l : List String, (∀ s ∈ l, s ≠ "") →
      l.filterMap buildTimecapsuleUrl = l.map specAbsolutize
  | [], _ => rfl
  | s :: ss, h => by
    rw [List.filterMap_cons,
      buildTimecapsuleUrl_eq s (h s (List.mem_cons_self s ss)),
      List.map_cons,
      filterMap_build_eq_map ss (fun x hx => h x (List.mem_cons_of_mem s hx))]

theorem find?_docs_nodup :
    ∀ l : List DocEntry, (l.map (fun x => x.name)).Nodup →
      ∀ d ∈ l, l.find? (fun x => x.name == d.name) = some d
  | [], _, d, hd => absurd hd (List.not_mem_nil d)
  | x :: xs, hnd, d, hd => by
    rcases List.mem_cons.mp hd with rfl | hd'
    · exact List.find?_cons_of_pos _ (by simp)
    · have hx : x.name ∉ xs.map (fun y => y.name) :=
        (List.nodup_cons.mp (by simpa using hnd)).1
      have hne : (x.name == d.name) = false := by
        refine beq_eq_false_iff_ne.mpr ?_
        intro heq
        exact hx (heq ▸ List.mem_map.mpr ⟨d, hd', rfl⟩)
      rw [List.find?_cons_of_neg _ (by simp [hne])]
      exact find?_docs_nodup xs (List.nodup_cons.mp (by simpa using hnd)).2
        d hd'

theorem documentLinksGet_eq (docs : List DocEntry)
    (hnd : (docs.map (fun x => x.name)).Nodup) (d : DocEntry)
    (hd : d ∈ docs) :
    documentLinksGet docs d.name = some (docLinkValue d) := by
  rw [documentLinksGet]
  have hrev : (docs.reverse.map (fun x => x.name)).Nodup := by
    rw [List.map_reverse]
    exact List.nodup_reverse.mpr hnd
  rw [find?_docs_nodup docs.reverse hrev d (List.mem_reverse.mpr hd)]
  rfl

set_option maxHeartbeats 1600000 in
/-- C5: `lookupTimecapsuleDocs` matches a goal against the period with the
same `start_day`/`end_day`; the matched period's own document list (with
its two fallbacks) is resolved name-by-name — to the recorded link, or to
the name itself when no link exists — normalized to an absolute URL
(unchanged when it has a network scheme, else prefixed with the fixed base
path), preserving document order; an absent knowledge index or a goal
matching no period yields `[]`. Stated for a well-formed document index
(non-empty, unique names; recorded links non-empty). -/
theorem c5_timelineLinks (goal : Goal) (k : KnowledgeIndex)
    (hdocs : ∀ d ∈ k.timecapsule_documents.getD [],
      d.name ≠ "" ∧ ∀ l, d.link = some l → l ≠ "")
    (hnd : ((k.timecapsule_documents.getD []).map (fun d => d.name)).Nodup) :
    lookupTimecapsuleDocs goal none = [] ∧
    ((k.timeline_periods.getD []).find?
        (fun p => p.start_day == goal.start_day &&
          p.end_day == goal.end_day) = none →
      lookupTimecapsuleDocs goal (some k) = []) ∧
    (∀ p, (k.timeline_periods.getD []).find?
        (fun q => q.start_day == goal.start_day &&
          q.end_day == goal.end_day) = some p →
      (p.start_day = goal.start_day ∧ p.end_day = goal.end_day) ∧
      ((∀ n ∈ docNamesFor k p,
          resolveDocName (k.timecapsule_documents.getD []) n ≠ "") →
        lookupTimecapsuleDocs goal (some k) =
          (docNamesFor k p).map (fun n =>
            specAbsolutize
              (resolveDocName (k.timecapsule_documents.getD []) n)))) ∧
    (∀ d ∈ k.timecapsule_documents.getD [],
      (∀ l, d.link = some l →
        resolveDocName (k.timecapsule_documents.getD []) d.name = l) ∧
      (d.link = none →
        resolveDocName (k.timecapsule_documents.getD []) d.name = d.name)) ∧
    (∀ n, (∀ d ∈ k.timecapsule_documents.getD [], d.name ≠ n) →
      resolveDocName (k.timecapsule_documents.getD []) n = n) ∧
    (∀ s, startsWithHttp s = true → specAbsolutize s = s) ∧
    (∀ s, startsWithHttp s = false →
      specAbsolutize s = timecapsuleBase ++ s) := by
  refine ⟨rfl, ?_, ?_, ?_, ?_, ?_, ?_⟩
  · intro h
    simp [lookupTimecapsuleDocs, h]
  · intro p hp
    constructor
    · have hpred := List.find?_some hp
      rw [Bool.and_eq_true, beq_iff_eq, beq_iff_eq] at hpred
      exact hpred
    · intro hn
      simp only [lookupTimecapsuleDocs, hp]
      rw [filterMap_build_eq_map _
        (by
          intro s hs
          obtain ⟨n, hmem, rfl⟩ := List.mem_map.mp hs
          exact hn n hmem)]
      rw [List.map_map]
      rfl
  · intro d hd
    constructor
    · intro l hl
      rw [resolveDocName, documentLinksGet_eq _ hnd d hd, docLinkValue, hl]
      have hlne : l ≠ "" := (hdocs d hd).2 l hl
      dsimp only
      simp [hlne]
    · intro hl
      rw [resolveDocName, documentLinksGet_eq _ hnd d hd, docLinkValue, hl]
      dsimp only
      simp
  · intro n hnone
    rw [resolveDocName, documentLinksGet]
    rw [List.find?_eq_none.mpr
      (by
        intro d hd h
        exact absurd (beq_iff_eq.mp h) (hnone d (List.mem_reverse.mp hd)))]
    rfl
  · intro s hs
    rw [specAbsolutize, if_pos hs]
  · intro s hs
    rw [specAbsolutize]
    rw [if_neg (by rw [hs]; exact Bool.false_ne_true)]

/-- The spec's timeline scenario: one period for days 1–5 with document
`DocA`, which has no recorded link. -/
def exampleKnowledge : KnowledgeIndex :=
  { timeline_periods := some [⟨"p1", 1, 5, some ["DocA"]⟩]
    timecapsule_documents := some [⟨"DocA", none⟩]
    referencesTimelineToDocuments := none }

/-- Witness for C5: a goal matching the days 1–5 period resolves `DocA` to
the base-prefixed URL; a goal matching no period yields `[]`. -/
theorem c5_timelineLinks_witness :
    lookupTimecapsuleDocs ⟨1, 5⟩ (some exampleKnowledge) =
      [timecapsuleBase ++ "DocA"] ∧
    lookupTimecapsuleDocs ⟨2, 6⟩ (some exampleKnowledge) = [] :=
  ⟨(((c5_timelineLinks ⟨1, 5⟩ exampleKnowledge (by decide)
        (by decide)).2.2.1 ⟨"p1", 1, 5, some ["DocA"]⟩ rfl).2
      (by decide)).trans (by decide),
    (c5_timelineLinks ⟨2, 6⟩ exampleKnowledge (by decide)
      (by decide)).2.1 rfl⟩

/-- An already-populated chart sink, used to observe adapter writes. -/
def exampleChartState : ChartState :=
  { overviewLabels := ["Mon"]
    overviewData := [1]
    agentLabels := ["A"]
    agentData := [2]
    networkData := [(1, 2, 3)]
    topicLabels := ["T"]
    topicCurrent := [4]
    topicLast := [5]
    trendLabels := ["Jan"]
    trendContributions := [6]
    trendCollab := [7] }

/-- C9 counterexample: an *empty* (non-absent) `dailyContributions` array
is truthy in JS, so `updateOverviewChart` does not leave the
previously-rendered labels and series unchanged — it overwrites both with
empty arrays. This falsifies the claim that an empty input is a no-op on
the sink. -/
theorem c9_counterexample :
    updateOverviewChart (fun s => s) (some []) exampleChartState ≠
      exampleChartState ∧
    (updateOverviewChart (fun s => s) (some [])
        exampleChartState).overviewLabels = [] ∧
    exampleChartState.overviewLabels = ["Mon"] := by
  refine ⟨?_, rfl, rfl⟩
  intro h
  have := congrArg ChartState.overviewLabels h
  simp [updateOverviewChart, exampleChartState, lastN] at this

/-- C9 (amended): an *absent* dataset leaves the previously-rendered chart
state unchanged (a no-op) for every series adapter, and — all adapters
being total functions — none of them can abort the refresh cycle; an
*empty* dataset, however, completes by overwriting the affected labels and
series with empty arrays (and the topic radar writes its default labels,
leaving only the missing week series unchanged), not by leaving them
untouched. -/
theorem c9_adaptersAbsentEmpty (fmt : String → String) (rnd : ℕ → ℚ × ℚ)
    (st : ChartState) :
    updateOverviewChart fmt none st = st ∧
    updateAgentChart none st = st ∧
    updateNetworkChart rnd none st = st ∧
    (∀ eOpt, updateNetworkChart rnd (some ⟨none, eOpt⟩) st = st) ∧
    updateTopicChart none st = st ∧
    updateTrendChart none st = st ∧
    updateOverviewChart fmt (some []) st =
      { st with overviewLabels := [], overviewData := [] } ∧
    updateAgentChart (some []) st =
      { st with agentLabels := [], agentData := [] } ∧
    (∀ eOpt, updateNetworkChart rnd (some ⟨some [], eOpt⟩) st =
      { st with networkData := [] }) ∧
    updateTopicChart (some ⟨none, none, none⟩) st =
      { st with topicLabels := defaultTopicLabels } ∧
    updateTrendChart (some []) st =
      { st with trendLabels := [], trendContributions := [], trendCollab := [] } :=
  ⟨rfl, rfl, rfl, fun _ => rfl, rfl, rfl, rfl, rfl, fun _ => rfl, rfl, rfl⟩
